import Mathlib

/-!
Verification of the ETL pipeline (loader / transformer / validator / reporting
manager) of this repository, shallowly embedded in Lean.

Modelling conventions:
* Python `datetime` values are embedded as integers (`DateT`), since the code
  only compares them.
* Python `Decimal` values are embedded as `Dec`: an integer mantissa together
  with the number of stored fractional digits, mirroring `Decimal.as_tuple()`.
  The fixed-point literal grammar of the external decimal constructor is
  modelled by `parseDecimal` (scientific notation, infinities and NaN are
  outside the modelled grammar; no claim depends on them).
* The external date parsers (`datetime.strptime` over the pattern list, and the
  pandas fallback) are collaborators, passed as function parameters
  `strp`/`pdfb : String → Option DateT`.
* The database session is modelled as a list of persisted rows plus a list of
  pending (added but unflushed) rows; a flush either persists all pending rows
  or fails, and a rollback discards pending rows.  Whether a row's insert is
  accepted by the database is abstracted as a predicate on the row.
-/

/-- Abstract timestamps: the code only ever compares them. -/
abbrev DateT := Int

/-- Python `str.strip()` on a character list. -/
def pyStripL (cs : List Char) : List Char :=
  ((cs.dropWhile Char.isWhitespace).reverse.dropWhile Char.isWhitespace).reverse

/-- Python `str.strip()`. -/
def pyStrip (s : String) : String := (pyStripL s.toList).asString

/-- Python `str.lower()` (ASCII case folding suffices for the repo's data). -/
def pyLower (s : String) : String := (s.toList.map Char.toLower).asString

/-- Python `s[:n]` truncation. -/
def pyTake (s : String) (n : Nat) : String := (s.toList.take n).asString

/-- Python `len(s)`. -/
def pyLen (s : String) : Nat := s.toList.length

/-- Model of a Python `Decimal`: `man / 10 ^ exp`, where `exp` is the number of
stored fractional digits (so `as_tuple().exponent = -exp`). -/
structure Dec where
  man : Int
  exp : Nat
  deriving DecidableEq, Repr

/-- Value order on `Dec` by cross-multiplication, matching numeric comparison
of Python `Decimal` values. -/
def Dec.lt (a b : Dec) : Prop :=
  a.man * (10 : Int) ^ b.exp < b.man * (10 : Int) ^ a.exp

instance (a b : Dec) : Decidable (Dec.lt a b) := by
  unfold Dec.lt; infer_instance

/-- Boolean form of `Dec.lt`. -/
def Dec.blt (a b : Dec) : Bool := decide (Dec.lt a b)

/-- Round `n / k` to an integer with ties to even (banker's rounding), the
default rounding of `Decimal.quantize`; `k` is assumed positive. -/
def roundHalfEven (n k : Int) : Int :=
  let q := Int.ediv n k
  let r := Int.emod n k
  if 2 * r < k then q
  else if k < 2 * r then q + 1
  else if Int.emod q 2 = 0 then q else q + 1

/-- `Decimal.quantize(Decimal('0.01'))` on a value with more than two
fractional digits: divide the mantissa by `10 ^ (exp - 2)` with ties to even. -/
def Dec.quantize2 (d : Dec) : Dec :=
  ⟨roundHalfEven d.man ((10 : Int) ^ (d.exp - 2)), 2⟩

/-- Numeric value of the digit list (most significant first). -/
def digitsVal (cs : List Char) : Nat :=
  cs.foldl (fun a c => a * 10 + (c.toNat - 48)) 0

/-- Split a character list at the (at most one) decimal point.  Two or more
points make the literal invalid. -/
def splitDotAux (acc : List Char) : List Char → Option (List Char × List Char)
  | [] => some (acc.reverse, [])
  | '.' :: rest => if rest.contains '.' then none else some (acc.reverse, rest)
  | c :: rest => splitDotAux (c :: acc) rest

/-- Fixed-point literal grammar of the external decimal constructor: optional
surrounding whitespace, optional sign, digits with at most one decimal point
and at least one digit. -/
def parseDecimal (s : String) : Option Dec :=
  let cs := pyStripL s.toList
  let signed : Int × List Char :=
    match cs with
    | '+' :: rest => (1, rest)
    | '-' :: rest => (-1, rest)
    | _ => (1, cs)
  match splitDotAux [] signed.2 with
  | none => none
  | some (intPart, fracPart) =>
    if (intPart ++ fracPart).all Char.isDigit ∧ intPart ++ fracPart ≠ [] then
      some ⟨signed.1 * (digitsVal (intPart ++ fracPart) : Int), fracPart.length⟩
    else
      none

deriving instance DecidableEq for Except

namespace Validation

/-- The fixed status enumeration (`InputValidator.VALID_STATUSES`). -/
def VALID_STATUSES : List String :=
  ["paid", "pending_payment", "voided", "refunded", "pre_authorized", "charged_back"]

/-- Result of a validation operation (`validation.ValidationResult`),
specialised to the type of the cleaned value. -/
structure VResult (α : Type) where
  is_valid : Bool := true
  errors : List String := []
  warnings : List String := []
  cleaned_value : Option α := none
  deriving DecidableEq, Repr

/-- The typed exceptions `InputValidator.validate_amount` can raise. -/
inductive AmountError where
  | invalidFormat (amount : String)
  | negative (amount : String)
  | zero (amount : String)
  deriving DecidableEq, Repr

/-- The typed exception `InputValidator.validate_status` can raise. -/
inductive StatusError where
  | invalidStatus (status : String)
  deriving DecidableEq, Repr

/-- `InputValidator.validate_amount`: a missing amount yields an invalid
result; an unparsable, negative, or (when `allow_zero` is false) zero amount
raises `InvalidAmountError`; more than two fractional digits triggers a
warning and banker's rounding to two digits. -/
def validate_amount (amount : Option String) (allow_zero : Bool := false) :
    Except AmountError (VResult Dec) :=
  match amount with
  | none => .ok { is_valid := false, errors := ["Amount is required"] }
  | some s =>
    match parseDecimal s with
    | none => .error (.invalidFormat s)
    | some d =>
      if d.man < 0 then .error (.negative s)
      else if ¬ allow_zero ∧ d.man = 0 then .error (.zero s)
      else if 2 < d.exp then
        .ok { warnings := ["Amount has more than 2 decimal places, will be rounded"],
              cleaned_value := some d.quantize2 }
      else
        .ok { cleaned_value := some d }

/-- `InputValidator.validate_status`: trims and lowercases the status, then
tests membership in the fixed enumeration; a non-member raises
`InvalidStatusError`. -/
def validate_status (status : Option String) : Except StatusError (VResult String) :=
  match status with
  | none => .ok { is_valid := false, errors := ["Status is required and must be a string"] }
  | some s =>
    if s = "" then
      .ok { is_valid := false, errors := ["Status is required and must be a string"] }
    else
      let cleaned := pyLower (pyStrip s)
      if cleaned = "" then
        .ok { is_valid := false, errors := ["Status cannot be empty"] }
      else if cleaned ∉ VALID_STATUSES then
        .error (.invalidStatus s)
      else
        .ok { cleaned_value := some cleaned }

end Validation

namespace Loader

/-- One CSV row as read into the in-memory frame: every cell is a raw string,
with `none` for the null sentinels (empty string, `NULL`, `null`, `None`). -/
structure LRow where
  id : Option String
  name : Option String
  company_id : Option String
  amount : Option String
  status : Option String
  created_at : Option String
  paid_at : Option String
  deriving DecidableEq, Repr

/-- Python truthiness of a cell after the `pd.isna` check: present and not the
empty string. -/
def truthy : Option String → Bool
  | none => false
  | some s => s ≠ ""

/-- A loading/validation error entry (the `message`/`data` diagnostic fields
are omitted; claims only inspect `etype`, `field` and `row`). -/
structure LoadErr where
  etype : String
  field : Option String
  row : Nat
  deriving DecidableEq, Repr

/-- A validation warning entry. -/
structure LoadWarning where
  wtype : String
  count : Nat
  deriving DecidableEq, Repr

/-- `DataLoader.VALID_STATUSES`. -/
def VALID_STATUSES : List String :=
  ["paid", "pending_payment", "voided", "refunded", "pre_authorized", "charged_back"]

/-- `DataLoader.MAX_LENGTHS`, in the dictionary's insertion order. -/
def MAX_LENGTHS : List (String × Nat) :=
  [("id", 64), ("name", 130), ("company_id", 64), ("status", 50),
   ("created_at", 50), ("paid_at", 50)]

/-- Cell access by field name, for the length-check loop over `MAX_LENGTHS`. -/
def LRow.cell (r : LRow) : String → Option String
  | "id" => r.id
  | "name" => r.name
  | "company_id" => r.company_id
  | "amount" => r.amount
  | "status" => r.status
  | "created_at" => r.created_at
  | "paid_at" => r.paid_at
  | _ => none

/-- `DataLoader._validate_row`.  `pdParse` abstracts `pd.to_datetime`
(used by `_is_valid_date_format`).  Note that the status check tests the raw
cell for exact membership in `VALID_STATUSES`; it does not trim or lowercase. -/
def validateRow (pdParse : String → Option DateT) (row : LRow) (idx : Nat) :
    List LoadErr :=
  let e1 := if ¬ truthy row.id then [⟨"missing_required_field", some "id", idx⟩] else []
  let e2 := if ¬ truthy row.company_id then
      [⟨"missing_required_field", some "company_id", idx⟩] else []
  let e3 := MAX_LENGTHS.flatMap (fun p =>
    match row.cell p.1 with
    | some s => if s ≠ "" ∧ p.2 < pyLen s then [⟨"field_too_long", some p.1, idx⟩] else []
    | none => [])
  let e4 :=
    match row.amount with
    | some s =>
      if s ≠ "" then
        match parseDecimal s with
        | some d => if d.man < 0 then [⟨"invalid_amount", some "amount", idx⟩] else []
        | none => [⟨"invalid_amount_format", some "amount", idx⟩]
      else []
    | none => []
  let e5 :=
    match row.status with
    | some s => if s ≠ "" ∧ s ∉ VALID_STATUSES then [⟨"invalid_status", some "status", idx⟩] else []
    | none => []
  let e6 := ["created_at", "paid_at"].flatMap (fun f =>
    match row.cell f with
    | some s => if s ≠ "" ∧ (pdParse s).isNone then [⟨"invalid_date_format", some f, idx⟩] else []
    | none => [])
  e1 ++ e2 ++ e3 ++ e4 ++ e5 ++ e6

/-- `loader.ValidationReport` (timings omitted). -/
structure ValidationReport where
  total_rows : Nat
  valid_rows : Nat
  invalid_rows : Nat
  errors : List LoadErr
  warnings : List LoadWarning
  duplicates : Nat
  deriving DecidableEq, Repr

/-- `ValidationReport.success_rate`, as an exact rational percentage. -/
def ValidationReport.success_rate (r : ValidationReport) : ℚ :=
  if r.total_rows = 0 then 0 else (r.valid_rows : ℚ) / (r.total_rows : ℚ) * 100

/-- Number of rows whose `id` equals the `id` of an earlier row
(`df.duplicated(subset=['id']).sum()`; pandas counts equal nulls as
duplicates of each other). -/
def countDuplicates (rows : List LRow) : Nat :=
  (rows.enum.filter (fun p =>
    (rows.take p.1).any (fun q => q.id = p.2.id))).length

/-- `DataLoader.validate_data_integrity`. -/
def validate_data_integrity (pdParse : String → Option DateT) (rows : List LRow) :
    ValidationReport :=
  let duplicates := countDuplicates rows
  let warnings := if 0 < duplicates then [⟨"duplicates", duplicates⟩] else []
  let errors := rows.enum.flatMap (fun p => validateRow pdParse p.2 p.1)
  let valid := (rows.enum.filter (fun p => validateRow pdParse p.2 p.1 = [])).length
  { total_rows := rows.length
    valid_rows := valid
    invalid_rows := rows.length - valid
    errors := errors
    warnings := warnings
    duplicates := duplicates }

/-- A `RawTransaction` model instance as built by
`DataLoader._row_to_raw_transaction`: empty cells become nulls and the amount
is converted to a decimal. -/
structure RawTx where
  id : Option String
  name : Option String
  company_id : Option String
  amount : Option Dec
  status : Option String
  created_at : Option String
  paid_at : Option String
  deriving DecidableEq, Repr

/-- `DataLoader._row_to_raw_transaction`; `none` models the `ValueError`
raised when the amount cell does not parse as a decimal. -/
def rowToRawTransaction (r : LRow) : Option RawTx :=
  let keep : Option String → Option String := fun c => if truthy c then c else none
  match r.amount with
  | some s =>
    if s ≠ "" then
      match parseDecimal s with
      | some d => some ⟨keep r.id, keep r.name, keep r.company_id, some d,
                        keep r.status, keep r.created_at, keep r.paid_at⟩
      | none => none
    else
      some ⟨keep r.id, keep r.name, keep r.company_id, none,
            keep r.status, keep r.created_at, keep r.paid_at⟩
  | none =>
    some ⟨keep r.id, keep r.name, keep r.company_id, none,
          keep r.status, keep r.created_at, keep r.paid_at⟩

/-- Database session scope: persisted rows of the open transaction plus rows
added but not yet flushed. -/
structure Sess where
  persisted : List RawTx
  pending : List RawTx
  deriving DecidableEq, Repr

/-- `session.add`. -/
def Sess.add (s : Sess) (r : RawTx) : Sess := { s with pending := s.pending ++ [r] }

/-- `session.flush`: the database accepts all pending rows or the flush fails.
Whether an insert violates a constraint is abstracted by `fails`. -/
def Sess.flush (fails : RawTx → Bool) (s : Sess) : Option Sess :=
  if s.pending.any fails then none
  else some { persisted := s.persisted ++ s.pending, pending := [] }

/-- `session.rollback`: pending rows are discarded. -/
def Sess.rollback (s : Sess) : Sess := { s with pending := [] }

/-- `DataLoader._load_rows_individually`: each row of the failed batch is
added and flushed on its own; a row whose flush fails is rolled back and
recorded as an `individual_row_error` at `batch_start_idx + idx`, where `idx`
is the row's label in the full frame.  A row-conversion `ValueError` here is
not caught (`.error ()`). -/
def loadRowsIndividually (fails : RawTx → Bool) (sess : Sess) :
    List (Nat × LRow) → Nat → Except Unit (Sess × Nat × List LoadErr)
  | [], _ => .ok (sess, 0, [])
  | (idx, row) :: rest, start =>
    match rowToRawTransaction row with
    | none => .error ()
    | some rt =>
      match Sess.flush fails (sess.add rt) with
      | some s2 =>
        match loadRowsIndividually fails s2 rest start with
        | .ok (s3, n, es) => .ok (s3, n + 1, es)
        | .error e => .error e
      | none =>
        match loadRowsIndividually fails (Sess.rollback (sess.add rt)) rest start with
        | .ok (s3, n, es) => .ok (s3, n, ⟨"individual_row_error", none, start + idx⟩ :: es)
        | .error e => .error e

/-- Phase one of `DataLoader._load_batch_to_database`: convert and add every
row of the batch, collecting `row_conversion_error` entries at
`batch_start_idx + idx`. -/
def addBatchRows (sess : Sess) (batch : List (Nat × LRow)) (start : Nat) :
    Sess × Nat × List LoadErr :=
  batch.foldl
    (fun acc p =>
      match rowToRawTransaction p.2 with
      | some rt => (acc.1.add rt, acc.2.1 + 1, acc.2.2)
      | none => (acc.1, acc.2.1, acc.2.2 ++ [⟨"row_conversion_error", none, start + p.1⟩]))
    (sess, 0, [])

/-- `DataLoader._load_batch_to_database`: add and flush the batch; on flush
failure, roll the batch back and retry its rows individually, so that the
loaded count and errors come from the individual pass. -/
def loadBatchToDatabase (fails : RawTx → Bool) (sess : Sess)
    (batch : List (Nat × LRow)) (start : Nat) :
    Except Unit (Sess × Nat × List LoadErr) :=
  let (s1, loaded, errs) := addBatchRows sess batch start
  match Sess.flush fails s1 with
  | some s2 => .ok (s2, loaded, errs)
  | none =>
    match loadRowsIndividually fails s1.rollback batch start with
    | .ok (s3, n, es) => .ok (s3, n, errs ++ es)
    | .error e => .error e

/-- Batch slicing: `range(0, len(df), batch_size)` over the labelled rows;
`iloc` slices keep the rows' original labels.  `batch_size` must be positive
(as in the source, where a zero step would raise). -/
def chunksGo (k : Nat) : Nat → List (Nat × LRow) → List (List (Nat × LRow))
  | 0, _ => []
  | _, [] => []
  | fuel + 1, l => l.take k :: chunksGo k fuel (l.drop k)

/-- All batches of size `k` of the labelled rows. -/
def chunks (k : Nat) (l : List (Nat × LRow)) : List (List (Nat × LRow)) :=
  chunksGo k l.length l

/-- Batched part of `DataLoader._load_dataframe_to_database`: each batch
starts at offset `start`, the next at `start + batch_size`. -/
def loadBatches (fails : RawTx → Bool) (k : Nat) (sess : Sess) :
    List (List (Nat × LRow)) → Nat → Except Unit (Sess × Nat × List LoadErr)
  | [], _ => .ok (sess, 0, [])
  | b :: bs, start =>
    match loadBatchToDatabase fails sess b start with
    | .error e => .error e
    | .ok (s1, n, es) =>
      match loadBatches fails k s1 bs (start + k) with
      | .error e => .error e
      | .ok (s2, m, es2) => .ok (s2, n + m, es ++ es2)

/-- `DataLoader._load_dataframe_to_database` over an initially empty
transaction scope (its `except SQLAlchemyError` arm is unreachable in this
model, since every flush failure is handled inside the batch). -/
def loadDataframeToDatabase (fails : RawTx → Bool) (rows : List LRow)
    (batch_size : Nat) : Except Unit (Sess × Nat × List LoadErr) :=
  loadBatches fails batch_size ⟨[], []⟩ (chunks batch_size rows.enum) 0

end Loader

namespace Transformer

/-- `transformer.TransformationReport` (error/issue lists abstracted to their
types where claims need them; timing kept as a plain rational). -/
structure TransformationReport where
  total_raw_rows : Nat
  transformed_rows : Nat
  skipped_rows : Nat
  companies_created : Nat
  charges_created : Nat
  deriving DecidableEq, Repr

/-- `TransformationReport.transformation_success_rate`: 100 for an empty
input, else the transformed percentage. -/
def TransformationReport.transformation_success_rate (r : TransformationReport) : ℚ :=
  if r.total_raw_rows = 0 then 100
  else (r.transformed_rows : ℚ) / (r.total_raw_rows : ℚ) * 100

/-- One raw staging row as handed to `_validate_row_for_transformation`
(string cells, nulls as `none`). -/
structure RawRow where
  id : Option String
  name : Option String
  company_id : Option String
  amount : Option String
  status : Option String
  created_at : Option String
  paid_at : Option String
  deriving DecidableEq, Repr

/-- The `created_at` slot of a cleaned row: either the parsed timestamp, or —
when the parse failed and the slot was never overwritten — the original raw
cell left behind in the row dictionary. -/
inductive TCell where
  | date (d : DateT)
  | raw (s : Option String)
  deriving DecidableEq, Repr

/-- A cleaned row as assembled by `_validate_row_for_transformation`. -/
structure CRow where
  id : String
  name : String
  company_id : String
  amount : Dec
  status : String
  created_at : TCell
  paid_at : Option DateT
  deriving DecidableEq, Repr

/-- Outcome of `_validate_row_for_transformation`
(`transformer.ValidationResult`). -/
structure VTResult where
  is_valid : Bool
  errors : List String
  warnings : List String
  cleaned_value : Option CRow
  deriving DecidableEq, Repr

/-- Outcome of `_parse_and_validate_date`. -/
structure DateVR where
  is_valid : Bool
  errors : List String
  warnings : List String
  cleaned_value : Option DateT
  deriving DecidableEq, Repr

/-- `DataTransformer.VALID_STATUSES`. -/
def VALID_STATUSES : List String :=
  ["paid", "pending_payment", "voided", "refunded", "pre_authorized", "charged_back"]

/-- `DataTransformer._parse_and_validate_date`: a blank value errors only for
`created_at`; otherwise the pattern list (`strp`) is tried first, then the
pandas fallback (`pdfb`) with a warning, and an error if both fail. -/
def parseAndValidateDate (strp pdfb : String → Option DateT)
    (dv : Option String) (field : String) : DateVR :=
  let blankCase : DateVR :=
    if field = "created_at" then ⟨false, [field ++ " is required"], [], none⟩
    else ⟨true, [], [], none⟩
  match dv with
  | none => blankCase
  | some s =>
    if pyStrip s = "" then blankCase
    else
      let t := pyStrip s
      match strp t with
      | some d => ⟨true, [], [], some d⟩
      | none =>
        match pdfb t with
        | some d => ⟨true, [], [field ++ " parsed with fallback method"], some d⟩
        | none => ⟨false, ["Unable to parse " ++ field ++ ": " ++ t], [], none⟩

/-- `DataTransformer._validate_row_for_transformation`.  Required fields and
amount/status checks mark the row invalid through `add_error`; a failed
`created_at` parse, however, only extends the `errors` list (`is_valid` is
left untouched), so such a row still counts as valid and its `created_at`
slot keeps the raw cell; a failed `paid_at` parse is demoted to a warning
with a null `paid_at`. -/
def validateRowForTransformation (strp pdfb : String → Option DateT)
    (row : RawRow) : VTResult :=
  let idStep : Option String × List String × List String :=
    match row.id with
    | none => (none, ["ID is required"], [])
    | some s =>
      if pyStrip s = "" then (none, ["ID is required"], [])
      else if 24 < pyLen (pyStrip s) then
        (some (pyTake (pyStrip s) 24), [], ["ID truncated to 24 characters"])
      else (some (pyStrip s), [], [])
  let cidStep : Option String × List String × List String :=
    match row.company_id with
    | none => (none, ["Company ID is required"], [])
    | some s =>
      if pyStrip s = "" then (none, ["Company ID is required"], [])
      else if 24 < pyLen (pyStrip s) then
        (some (pyTake (pyStrip s) 24), [], ["Company ID truncated to 24 characters"])
      else (some (pyStrip s), [], [])
  let nameStep : String × List String :=
    match row.name with
    | none => ("Unknown Company", ["Company name is missing"])
    | some s =>
      if pyStrip s = "" then ("Unknown Company", ["Company name is missing"])
      else if 130 < pyLen (pyStrip s) then
        (pyTake (pyStrip s) 130, ["Company name truncated to 130 characters"])
      else (pyStrip s, [])
  let amountStep : Option Dec × List String :=
    match row.amount with
    | none => (none, ["Amount is required"])
    | some s =>
      match parseDecimal s with
      | none => (none, ["Invalid amount format: " ++ s])
      | some d => if d.man < 0 then (none, ["Amount cannot be negative"]) else (some d, [])
  let statusStep : Option String × List String × List String :=
    match row.status with
    | none => (none, ["Status is required"], [])
    | some s =>
      if pyStrip s = "" then (none, ["Status is required"], [])
      else
        let cleaned := pyLower (pyStrip s)
        if cleaned ∉ VALID_STATUSES then (none, ["Invalid status: " ++ cleaned], [])
        else if 30 < pyLen cleaned then
          (some (pyTake cleaned 30), [], ["Status truncated to 30 characters"])
        else (some cleaned, [], [])
  let createdRes := parseAndValidateDate strp pdfb row.created_at "created_at"
  let createdCell : TCell :=
    if createdRes.is_valid then
      match createdRes.cleaned_value with
      | some d => .date d
      | none => .raw row.created_at
    else .raw row.created_at
  let createdErrs := if createdRes.is_valid then [] else createdRes.errors
  let paidStep : Option DateT × List String :=
    match row.paid_at with
    | none => (none, [])
    | some s =>
      if pyStrip s = "" then (none, [])
      else
        let r := parseAndValidateDate strp pdfb (some s) "paid_at"
        if r.is_valid then (r.cleaned_value, [])
        else (none, r.errors.map (fun e => "paid_at: " ++ e))
  let valid := idStep.2.1.isEmpty && cidStep.2.1.isEmpty
      && amountStep.2.isEmpty && statusStep.2.1.isEmpty
  let errors := idStep.2.1 ++ cidStep.2.1 ++ amountStep.2 ++ statusStep.2.1 ++ createdErrs
  let warnings := idStep.2.2 ++ cidStep.2.2 ++ nameStep.2 ++ statusStep.2.2 ++ paidStep.2
  let cleaned : Option CRow :=
    if valid then
      match idStep.1, cidStep.1, amountStep.1, statusStep.1 with
      | some i, some c, some a, some st =>
        some ⟨i, nameStep.1, c, a, st, createdCell, paidStep.1⟩
      | _, _, _, _ => none
    else none
  ⟨valid, errors, warnings, cleaned⟩

/-- A quality issue recorded against an excluded row during the validation
pass (`original_data` omitted). -/
structure VIssue where
  type : String
  row_index : Nat
  errors : List String
  warnings : List String
  deriving DecidableEq, Repr

/-- `DataTransformer._validate_transformed_data`: keep the cleaned value of
every row whose result is valid; record a `validation_error` issue for the
others.  The source's fallback of appending the raw dictionary when a valid
result has a falsy cleaned value is unreachable (a valid result always
carries a non-empty cleaned dictionary) and is modelled as dropping the row. -/
def validateTransformedData (strp pdfb : String → Option DateT)
    (rows : List RawRow) : List CRow × List VIssue :=
  let step := fun (acc : List CRow × List VIssue) (p : Nat × RawRow) =>
    let res := validateRowForTransformation strp pdfb p.2
    if res.is_valid then
      match res.cleaned_value with
      | some c => (acc.1 ++ [c], acc.2)
      | none => acc
    else
      (acc.1, acc.2 ++ [⟨"validation_error", p.1, res.errors, res.warnings⟩])
  rows.enum.foldl step ([], [])

/-- A fully typed row entering the business-rules stage: the shape produced
by a validation pass in which both dates parsed (see the `created_at` finding
for the one way a raw string can survive).  The `updated_at` column does not
exist before business rule 4 creates it, hence the `none` default. -/
structure TRow where
  id : String
  name : String
  company_id : String
  amount : Dec
  status : String
  created_at : DateT
  paid_at : Option DateT
  updated_at : Option DateT := none
  deriving DecidableEq, Repr

/-- Python `str.title()`: uppercase every letter that follows a non-letter,
lowercase the rest. -/
def pyTitleGo (prevAlpha : Bool) : List Char → List Char
  | [] => []
  | c :: cs =>
    let c' := if c.isAlpha then (if prevAlpha then c.toLower else c.toUpper) else c
    c' :: pyTitleGo c.isAlpha cs

/-- Python `str.title()`. -/
def pyTitle (s : String) : String := (pyTitleGo false s.toList).asString

/-- Collapse internal whitespace runs to single spaces
(`re.sub(r'\s+', ' ', name)` on an already stripped string). -/
def collapseWsGo (prevWs : Bool) : List Char → List Char
  | [] => []
  | c :: cs =>
    if c.isWhitespace then
      if prevWs then collapseWsGo true cs else ' ' :: collapseWsGo true cs
    else c :: collapseWsGo false cs

/-- `DataTransformer._standardize_company_name`: blank becomes
`Unknown Company`; otherwise strip, collapse whitespace, title-case. -/
def standardizeCompanyName (name : Option String) : String :=
  match name with
  | none => "Unknown Company"
  | some s =>
    if pyStrip s = "" then "Unknown Company"
    else pyTitle ((collapseWsGo false (pyStrip s).toList).asString)

/-- Recorded outcome of a business rule (`message` text omitted). -/
structure QIssue where
  type : String
  count : Nat
  deriving DecidableEq, Repr

/-- Keep-first deduplication by a string key
(`drop_duplicates(subset=[...], keep='first')`). -/
def dedupByGo {α : Type} (key : α → String) (seen : List String) :
    List α → List α
  | [] => []
  | r :: rs =>
    if key r ∈ seen then dedupByGo key seen rs
    else r :: dedupByGo key (key r :: seen) rs

/-- Keep-first deduplication by a string key. -/
def dedupBy {α : Type} (key : α → String) (l : List α) : List α :=
  dedupByGo key [] l

/-- Business rule 5 (`DataTransformer._validate_date_consistency`): one
`date_consistency_error` issue counting the paid rows whose `paid_at`
precedes `created_at` (rows are flagged, never dropped). -/
def dateConsistencyIssues (rows : List TRow) : List QIssue :=
  let bad := rows.filter (fun r =>
    r.status == "paid" &&
      (match r.paid_at with
       | some p => decide (p < r.created_at)
       | none => false))
  if 0 < bad.length then [⟨"date_consistency_error", bad.length⟩] else []

/-- `DataTransformer._apply_business_rules`: drop duplicate charge ids
keeping the first occurrence, standardize names, floor sub-cent amounts up to
0.01, set `updated_at := paid_at` for paid rows (the `created_at` fallback in
the source applies only when the `paid_at` column is missing from the frame,
which never happens in the pipeline), then flag date inconsistencies. -/
def applyBusinessRules (rows : List TRow) : List TRow × List QIssue :=
  let deduped := dedupBy TRow.id rows
  let dups := rows.length - deduped.length
  let issues1 : List QIssue := if 0 < dups then [⟨"duplicates_removed", dups⟩] else []
  let named := deduped.map (fun r => { r with name := standardizeCompanyName (some r.name) })
  let smallCount := (named.filter (fun r => Dec.blt r.amount ⟨1, 2⟩)).length
  let adjusted := named.map (fun r => if Dec.blt r.amount ⟨1, 2⟩ then { r with amount := ⟨1, 2⟩ } else r)
  let issues2 : List QIssue := if 0 < smallCount then [⟨"small_amounts_adjusted", smallCount⟩] else []
  let upd := adjusted.map (fun r => if r.status == "paid" then { r with updated_at := r.paid_at } else r)
  let issues3 := dateConsistencyIssues upd
  (upd, issues1 ++ issues2 ++ issues3)

/-- A `Company` model row (`models.Company`). -/
structure Company where
  company_id : String
  company_name : String
  created_at : DateT
  updated_at : Option DateT
  deriving DecidableEq, Repr

/-- A `Charge` model row (`models.Charge`). -/
structure Charge where
  id : String
  company_id : String
  amount : Dec
  status : String
  created_at : DateT
  updated_at : Option DateT
  deriving DecidableEq, Repr

/-- `DataTransformer._extract_companies`: distinct `company_id`s keeping the
first-seen name; `created_at` is the transform time (`now`). -/
def extractCompanies (now : DateT) (rows : List TRow) : List Company :=
  (dedupBy TRow.company_id rows).map (fun r => ⟨r.company_id, r.name, now, none⟩)

/-- `DataTransformer._transform_charges`: project the charge columns
(`updated_at` passes through, nulls preserved). -/
def transformCharges (rows : List TRow) : List Charge :=
  rows.map (fun r => ⟨r.id, r.company_id, r.amount, r.status, r.created_at, r.updated_at⟩)

/-- Shared shape of `_load_companies` and `_load_charges`: walk the derived
rows in order and insert each one only when no row with the same key is
visible in the session; return the new table state and the insert count. -/
def insertIfAbsent {α : Type} (key : α → String) (db : List α) :
    List α → List α × Nat
  | [] => (db, 0)
  | r :: rs =>
    if db.any (fun c => key c == key r) then insertIfAbsent key db rs
    else
      let p := insertIfAbsent key (db ++ [r]) rs
      (p.1, p.2 + 1)

/-- `DataTransformer._load_companies`: insert-if-absent keyed on
`company_id`. -/
def loadCompanies (db : List Company) (rows : List Company) : List Company × Nat :=
  insertIfAbsent Company.company_id db rows

/-- `DataTransformer._load_charges`: insert-if-absent keyed on the charge
`id`. -/
def loadCharges (db : List Charge) (rows : List Charge) : List Charge × Nat :=
  insertIfAbsent Charge.id db rows

end Transformer

namespace Manager

/-- Charges whose `company_id` matches no company
(the outer-join `Company.company_id IS NULL` count in
`DatabaseManager.get_data_distribution_statistics`). -/
def orphanedCharges (companies : List Transformer.Company)
    (charges : List Transformer.Charge) : Nat :=
  (charges.filter (fun ch =>
    ¬ companies.any (fun c => c.company_id == ch.company_id))).length

/-- Companies with no charge (the outer-join `Charge.company_id IS NULL`
count). -/
def companiesWithoutCharges (companies : List Transformer.Company)
    (charges : List Transformer.Charge) : Nat :=
  (companies.filter (fun c =>
    ¬ charges.any (fun ch => ch.company_id == c.company_id))).length

/-- The `integrity_score` of the `data_integrity` block:
`100 - orphaned * 10 - companies_without_charges * 5`. -/
def integrityScore (companies : List Transformer.Company)
    (charges : List Transformer.Charge) : Int :=
  100 - (orphanedCharges companies charges : Int) * 10
      - (companiesWithoutCharges companies charges : Int) * 5

end Manager

/-- Number of rows of `db` whose key equals `k`. -/
def countByKey {α : Type} (key : α → String) (db : List α) (k : String) : Nat :=
  (db.filter (fun c => key c == k)).length

section ConcreteInstances

/-- A pandas-style date parser accepting exactly the date used by the
concrete scenarios. -/
def demoDateP : String → Option DateT := fun s => if s = "2020-01-01" then some 100 else none

/-- Concrete loader row 0 of the batched-loading scenario. -/
def c2row0 : Loader.LRow :=
  ⟨some "r0", some "N0", some "c1", some "10.00", some "paid", some "2020-01-01", none⟩

/-- Concrete loader row 1 of the batched-loading scenario. -/
def c2row1 : Loader.LRow :=
  ⟨some "r1", some "N1", some "c1", some "5.00", some "voided", some "2020-01-01", none⟩

/-- Concrete loader row 2 of the batched-loading scenario: the database
rejects its insert. -/
def c2row2 : Loader.LRow :=
  ⟨some "r2", some "N2", some "c1", some "7.00", some "paid", some "2020-01-01", none⟩

/-- Constraint oracle of the batched-loading scenario: only the row with id
`r2` violates a constraint. -/
def c2fails : Loader.RawTx → Bool := fun rt => rt.id == some "r2"

/-- A loader row whose status differs from `paid` only in letter case. -/
def c7row : Loader.LRow :=
  ⟨some "a1", some "Acme", some "c1", some "10.00", some "PAID", some "2020-01-01", none⟩

/-- A paid business-rules row with `paid_at` absent. -/
def c5row : Transformer.TRow :=
  { id := "a1", name := "Acme", company_id := "c1", amount := ⟨1000, 2⟩,
    status := "paid", created_at := 5, paid_at := none }

/-- First occurrence of charge id `a1`: a paid row with consistent dates. -/
def c8r1 : Transformer.TRow :=
  { id := "a1", name := "Acme", company_id := "c1", amount := ⟨1000, 2⟩,
    status := "paid", created_at := 0, paid_at := some 0 }

/-- Second occurrence of charge id `a1`: a paid row whose `paid_at` precedes
its `created_at`. -/
def c8r2 : Transformer.TRow :=
  { id := "a1", name := "Acme", company_id := "c1", amount := ⟨1000, 2⟩,
    status := "paid", created_at := 10, paid_at := some 5 }

/-- A raw transformer row whose `created_at` cell parses under no pattern. -/
def c10row : Transformer.RawRow :=
  ⟨some "a1", some "Acme", some "c1", some "10.00", some "paid", some "garbage", none⟩

/-- A raw transformer row with a parsable `created_at` and an unparsable
`paid_at`. -/
def c10rowB : Transformer.RawRow :=
  ⟨some "a1", some "Acme", some "c1", some "10.00", some "paid", some "2020-01-01",
   some "garbage"⟩

/-- The business-rules image of `c8r2` when processed alone: business rule 4
sets its `updated_at` to its `paid_at`. -/
def c8r2Out : Transformer.TRow :=
  { id := "a1", name := "Acme", company_id := "c1", amount := ⟨1000, 2⟩,
    status := "paid", created_at := 10, paid_at := some 5, updated_at := some 5 }

/-- An existing company row for the upsert witness. -/
def cWit : Transformer.Company := ⟨"c1", "Acme", 0, none⟩

/-- A derived company row sharing `cWit`'s key. -/
def cWit2 : Transformer.Company := ⟨"c1", "New Name", 7, none⟩

/-- An existing charge row for the upsert witness. -/
def gWit : Transformer.Charge := ⟨"ch1", "c1", ⟨1000, 2⟩, "paid", 0, none⟩

/-- A derived charge row sharing `gWit`'s key. -/
def gWit2 : Transformer.Charge := ⟨"ch1", "c2", ⟨500, 2⟩, "voided", 3, none⟩

end ConcreteInstances

section UpsertLemmas

variable {α : Type} (key : α → String)

theorem insertIfAbsent_mem {c : α} :
    ∀ (rs db : List α), c ∈ db → c ∈ (Transformer.insertIfAbsent key db rs).1 := by
  intro rs
  induction rs with
  | nil => intro db h; simpa [Transformer.insertIfAbsent] using h
  | cons r rs ih =>
    intro db h
    simp only [Transformer.insertIfAbsent]
    split
    · exact ih db h
    · exact ih (db ++ [r]) (List.mem_append_left _ h)

theorem insertIfAbsent_any (p : α → Bool) :
    ∀ (rs db : List α), db.any p = true →
      (Transformer.insertIfAbsent key db rs).1.any p = true := by
  intro rs db h
  rcases List.any_eq_true.1 h with ⟨c, hc, hpc⟩
  exact List.any_eq_true.2 ⟨c, insertIfAbsent_mem key rs db hc, hpc⟩

theorem insertIfAbsent_covers {r : α} :
    ∀ (rs db : List α), r ∈ rs →
      (Transformer.insertIfAbsent key db rs).1.any (fun c => key c == key r) = true := by
  intro rs
  induction rs with
  | nil => intro db h; cases h
  | cons x rs ih =>
    intro db h
    simp only [Transformer.insertIfAbsent]
    split
    · rcases List.mem_cons.1 h with hrx | hr
      · subst hrx
        exact insertIfAbsent_any key _ rs db (by assumption)
      · exact ih db hr
    · rcases List.mem_cons.1 h with hrx | hr
      · subst hrx
        refine insertIfAbsent_any key _ rs (db ++ [r]) ?_
        exact List.any_eq_true.2 ⟨r, List.mem_append_right _ (List.mem_singleton.2 rfl), by simp⟩
      · exact ih (db ++ [x]) hr

theorem insertIfAbsent_noop :
    ∀ (rs db : List α), (∀ r ∈ rs, db.any (fun c => key c == key r) = true) →
      Transformer.insertIfAbsent key db rs = (db, 0) := by
  intro rs
  induction rs with
  | nil => intro db _; rfl
  | cons x rs ih =>
    intro db h
    simp only [Transformer.insertIfAbsent]
    rw [if_pos (h x (List.mem_cons_self x rs))]
    exact ih db (fun r hr => h r (List.mem_cons_of_mem x hr))

theorem insertIfAbsent_idempotent (rs db : List α) :
    Transformer.insertIfAbsent key (Transformer.insertIfAbsent key db rs).1 rs
      = ((Transformer.insertIfAbsent key db rs).1, 0) :=
  insertIfAbsent_noop key rs _ (fun _ hr => insertIfAbsent_covers key rs db hr)

theorem countByKey_append (db ext : List α) (k : String) :
    countByKey key (db ++ ext) k = countByKey key db k + countByKey key ext k := by
  simp [countByKey]

theorem insertIfAbsent_count_preserved :
    ∀ (rs db : List α) (k : String), 0 < countByKey key db k →
      countByKey key (Transformer.insertIfAbsent key db rs).1 k = countByKey key db k := by
  intro rs
  induction rs with
  | nil => intro db k _; rfl
  | cons x rs ih =>
    intro db k hk
    simp only [Transformer.insertIfAbsent]
    split
    · exact ih db k hk
    · have hxk : ¬ key x = k := by
        intro hxe
        have hdb : db.any (fun c => key c == key x) = false := by
          rename_i hcond
          exact Bool.not_eq_true _ ▸ (by simpa using hcond)
        have : countByKey key db k = 0 := by
          simp only [countByKey, List.length_eq_zero]
          rw [List.filter_eq_nil_iff]
          intro c hc
          have := List.any_eq_false.1 hdb c hc
          simpa [hxe] using this
        omega
      have hext : countByKey key (db ++ [x]) k = countByKey key db k := by
        rw [countByKey_append]
        simp [countByKey, hxk]
      have := ih (db ++ [x]) k (by rw [hext]; exact hk)
      rw [this, hext]

end UpsertLemmas

section BusinessRuleLemmas

open Transformer

theorem dedupByGo_mem {α : Type} (key : α → String) (r : α) :
    ∀ (l1 l2 : List α) (seen : List String), key r ∉ seen →
      (∀ x ∈ l1, key x ≠ key r) → r ∈ dedupByGo key seen (l1 ++ r :: l2) := by
  intro l1
  induction l1 with
  | nil =>
    intro l2 seen hseen _
    simp only [List.nil_append, dedupByGo]
    rw [if_neg hseen]
    exact List.mem_cons_self _ _
  | cons x l1 ih =>
    intro l2 seen hseen hl1
    simp only [List.cons_append, dedupByGo]
    split
    · exact ih l2 seen hseen (fun y hy => hl1 y (List.mem_cons_of_mem x hy))
    · refine List.mem_cons_of_mem x ?_
      refine ih l2 (key x :: seen) ?_ (fun y hy => hl1 y (List.mem_cons_of_mem x hy))
      intro hmem
      rcases List.mem_cons.1 hmem with heq | hin
      · exact hl1 x (List.mem_cons_self x l1) heq.symm
      · exact hseen hin

theorem dedupBy_mem_of_first {α : Type} (key : α → String) (r : α)
    (l1 l2 : List α) (h : ∀ x ∈ l1, key x ≠ key r) :
    r ∈ dedupBy key (l1 ++ r :: l2) :=
  dedupByGo_mem key r l1 l2 [] (by simp) h

/-- The processed image, inside the business-rules output, of a row that
survived deduplication: key fields are preserved, only `name`, `amount` and
`updated_at` can change, and paid rows get `updated_at := paid_at`. -/
theorem applyBusinessRules_mem (rows : List TRow) (r : TRow)
    (hr : r ∈ dedupBy TRow.id rows) :
    ∃ r' ∈ (applyBusinessRules rows).1,
      r'.id = r.id ∧ r'.status = r.status ∧ r'.paid_at = r.paid_at ∧
      r'.created_at = r.created_at ∧
      (r'.status = "paid" → r'.updated_at = r'.paid_at) := by
  simp only [applyBusinessRules]
  set f1 : TRow → TRow := fun r => { r with name := standardizeCompanyName (some r.name) } with hf1
  set f2 : TRow → TRow := fun r => if Dec.blt r.amount ⟨1, 2⟩ then { r with amount := ⟨1, 2⟩ } else r with hf2
  set f3 : TRow → TRow := fun r => if r.status == "paid" then { r with updated_at := r.paid_at } else r with hf3
  refine ⟨f3 (f2 (f1 r)), ?_, ?_⟩
  · exact List.mem_map_of_mem f3 (List.mem_map_of_mem f2 (List.mem_map_of_mem f1 hr))
  · have h1 : (f1 r).id = r.id ∧ (f1 r).status = r.status ∧ (f1 r).paid_at = r.paid_at ∧
        (f1 r).created_at = r.created_at ∧ (f1 r).updated_at = r.updated_at := by
      simp [hf1]
    have h2 : (f2 (f1 r)).id = r.id ∧ (f2 (f1 r)).status = r.status ∧
        (f2 (f1 r)).paid_at = r.paid_at ∧ (f2 (f1 r)).created_at = r.created_at := by
      simp only [hf2]
      split <;> simp [h1.1, h1.2.1, h1.2.2.1, h1.2.2.2.1]
    simp only [hf3]
    split
    · exact ⟨h2.1, h2.2.1, h2.2.2.1, h2.2.2.2, fun _ => rfl⟩
    · rename_i hnp
      refine ⟨h2.1, h2.2.1, h2.2.2.1, h2.2.2.2, fun hp => absurd ?_ hnp⟩
      simp [hp]

/-- If the business-rules output contains a paid row whose `paid_at` precedes
its `created_at`, a `date_consistency_error` issue is recorded. -/
theorem dateConsistencyIssues_of_mem (rows : List TRow) (r : TRow)
    (hr : r ∈ rows) (hs : r.status = "paid") (p : DateT)
    (hp : r.paid_at = some p) (hlt : p < r.created_at) :
    ∃ iss ∈ dateConsistencyIssues rows, iss.type = "date_consistency_error" := by
  simp only [dateConsistencyIssues]
  have hmem : r ∈ rows.filter (fun r =>
      r.status == "paid" &&
        (match r.paid_at with
         | some p => decide (p < r.created_at)
         | none => false)) := by
    refine List.mem_filter.2 ⟨hr, ?_⟩
    simp [hs, hp, hlt]
  have hlen : 0 < (rows.filter (fun r =>
      r.status == "paid" &&
        (match r.paid_at with
         | some p => decide (p < r.created_at)
         | none => false))).length := List.length_pos.2 (List.ne_nil_of_mem hmem)
  rw [if_pos hlen]
  exact ⟨_, List.mem_singleton.2 rfl, rfl⟩

end BusinessRuleLemmas

section Claims

/-- C1: the transformer's upserts are insert-if-absent — a Company is
inserted only if no row with its `company_id` exists and a Charge only if no
row with its `id` exists (rows with an existing key leave the table's count
for that key unchanged) — and re-running the load over the same derived rows
inserts zero new Company rows and zero new Charge rows. -/
theorem transformer_upsert_insert_if_absent_idempotent
    (dbC crows : List Transformer.Company) (dbG grows : List Transformer.Charge) :
    (∀ cid, 0 < countByKey Transformer.Company.company_id dbC cid →
        countByKey Transformer.Company.company_id
            (Transformer.loadCompanies dbC crows).1 cid
          = countByKey Transformer.Company.company_id dbC cid) ∧
    Transformer.loadCompanies (Transformer.loadCompanies dbC crows).1 crows
      = ((Transformer.loadCompanies dbC crows).1, 0) ∧
    (∀ gid, 0 < countByKey Transformer.Charge.id dbG gid →
        countByKey Transformer.Charge.id (Transformer.loadCharges dbG grows).1 gid
          = countByKey Transformer.Charge.id dbG gid) ∧
    Transformer.loadCharges (Transformer.loadCharges dbG grows).1 grows
      = ((Transformer.loadCharges dbG grows).1, 0) := by
  refine ⟨?_, ?_, ?_, ?_⟩
  · intro cid h
    exact insertIfAbsent_count_preserved Transformer.Company.company_id crows dbC cid h
  · exact insertIfAbsent_idempotent Transformer.Company.company_id crows dbC
  · intro gid h
    exact insertIfAbsent_count_preserved Transformer.Charge.id grows dbG gid h
  · exact insertIfAbsent_idempotent Transformer.Charge.id grows dbG

/-- Witness for C1 at a one-row table and a one-row derived set sharing its
key. -/
theorem transformer_upsert_insert_if_absent_idempotent_witness :
    (0 < countByKey Transformer.Company.company_id [cWit] "c1" ∧
      countByKey Transformer.Company.company_id
          (Transformer.loadCompanies [cWit] [cWit2]).1 "c1"
        = countByKey Transformer.Company.company_id [cWit] "c1") ∧
    Transformer.loadCompanies (Transformer.loadCompanies [cWit] [cWit2]).1 [cWit2]
      = ((Transformer.loadCompanies [cWit] [cWit2]).1, 0) ∧
    (0 < countByKey Transformer.Charge.id [gWit] "ch1" ∧
      countByKey Transformer.Charge.id (Transformer.loadCharges [gWit] [gWit2]).1 "ch1"
        = countByKey Transformer.Charge.id [gWit] "ch1") :=
  ⟨⟨by decide,
    (transformer_upsert_insert_if_absent_idempotent [cWit] [cWit2] [gWit] [gWit2]).1
      "c1" (by decide)⟩,
   (transformer_upsert_insert_if_absent_idempotent [cWit] [cWit2] [gWit] [gWit2]).2.1,
   ⟨by decide,
    (transformer_upsert_insert_if_absent_idempotent [cWit] [cWit2] [gWit] [gWit2]).2.2.1
      "ch1" (by decide)⟩⟩

/-- C3: the distribution-statistics integrity score equals 100 exactly when
there are zero orphaned charges and zero companies without charges, and is
strictly below 100 exactly when either count is positive. -/
theorem distribution_integrity_score_100_iff
    (companies : List Transformer.Company) (charges : List Transformer.Charge) :
    (Manager.integrityScore companies charges = 100 ↔
      Manager.orphanedCharges companies charges = 0 ∧
        Manager.companiesWithoutCharges companies charges = 0) ∧
    (Manager.integrityScore companies charges < 100 ↔
      0 < Manager.orphanedCharges companies charges ∨
        0 < Manager.companiesWithoutCharges companies charges) := by
  unfold Manager.integrityScore
  constructor
  · constructor <;> intro h <;> omega
  · constructor <;> intro h <;> omega

/-- C4 counterexample: `validate_amount("0.001")` succeeds with a warning but
its cleaned value is 0.00 (banker's rounding), not 0.01, and an all-zero
high-precision amount such as `"0.000"` does not succeed at all (the zero
check raises). -/
theorem validate_amount_small_value_counterexample :
    Validation.validate_amount (some "0.001")
      = .ok { warnings := ["Amount has more than 2 decimal places, will be rounded"],
              cleaned_value := some ⟨0, 2⟩ } ∧
    Dec.mk 0 2 ≠ Dec.mk 1 2 ∧ Dec.lt ⟨0, 2⟩ ⟨1, 2⟩ ∧
    Validation.validate_amount (some "0.000") = .error (.zero "0.000") := by
  decide

/-- C4 (amended): for every amount that parses to a positive decimal with
more than 2 fractional digits, `validate_amount` succeeds, warns, and returns
the value rounded half-to-even to 2 fractional digits (so `"0.001"` cleans to
0.00). -/
theorem validate_amount_rounds_half_even (s : String) (d : Dec)
    (hp : parseDecimal s = some d) (hpos : 0 < d.man) (hexp : 2 < d.exp) :
    Validation.validate_amount (some s)
      = .ok { warnings := ["Amount has more than 2 decimal places, will be rounded"],
              cleaned_value := some d.quantize2 } ∧
    d.quantize2.exp = 2 := by
  refine ⟨?_, rfl⟩
  simp only [Validation.validate_amount, hp]
  rw [if_neg (by omega), if_neg (by simp; omega), if_pos hexp]

/-- Witness for C4 (amended) at the input 0.001. -/
theorem validate_amount_rounds_half_even_witness :
    parseDecimal "0.001" = some ⟨1, 3⟩ ∧ 0 < (Dec.mk 1 3).man ∧ 2 < (Dec.mk 1 3).exp ∧
    Validation.validate_amount (some "0.001")
      = .ok { warnings := ["Amount has more than 2 decimal places, will be rounded"],
              cleaned_value := some (Dec.mk 1 3).quantize2 } :=
  ⟨by decide, by decide, by decide,
   (validate_amount_rounds_half_even "0.001" ⟨1, 3⟩ (by decide) (by decide) (by decide)).1⟩

/-- C6 counterexample: for a negative amount and for an unparsable amount,
`validate_amount` raises `InvalidAmountError` rather than returning a result
marked invalid. -/
theorem validate_amount_raises_counterexample :
    Validation.validate_amount (some "-1") = .error (.negative "-1") ∧
    Validation.validate_amount (some "abc") = .error (.invalidFormat "abc") := by
  decide

/-- C6 (amended): `validate_amount` returns an invalid result only for a
missing amount; unparsable amounts raise `InvalidAmountError` with an
invalid-format message and negative amounts raise `InvalidAmountError` with a
cannot-be-negative message — the error is thrown, not returned. -/
theorem validate_amount_error_channels (s : String) (z : Bool) :
    Validation.validate_amount none z
        = .ok { is_valid := false, errors := ["Amount is required"] } ∧
    (parseDecimal s = none →
      Validation.validate_amount (some s) z = .error (.invalidFormat s)) ∧
    (∀ d : Dec, parseDecimal s = some d → d.man < 0 →
      Validation.validate_amount (some s) z = .error (.negative s)) := by
  refine ⟨rfl, fun h => ?_, fun d hd hneg => ?_⟩
  · simp only [Validation.validate_amount, h]
  · simp only [Validation.validate_amount, hd]
    rw [if_pos hneg]

/-- Witness for C6 (amended) at the input -1. -/
theorem validate_amount_error_channels_witness :
    parseDecimal "-1" = some ⟨-1, 0⟩ ∧ (Dec.mk (-1) 0).man < 0 ∧
    Validation.validate_amount (some "-1") false = .error (.negative "-1") :=
  ⟨by decide, by decide,
   (validate_amount_error_channels "-1" false).2.2 ⟨-1, 0⟩ (by decide) (by decide)⟩

/-- C5 counterexample: a paid row with `paid_at` absent passes through the
business rules with `updated_at` still null — it is not set to the row's
`created_at`. -/
theorem business_rule_paid_missing_paid_at_counterexample :
    c5row.status = "paid" ∧ c5row.paid_at = none ∧ c5row.created_at = 5 ∧
    (Transformer.applyBusinessRules [c5row]).1 = [c5row] ∧
    (Transformer.applyBusinessRules [c5row]).1.map Transformer.TRow.updated_at = [none] ∧
    (none : Option DateT) ≠ some 5 := by
  decide

/-- C5 (amended): for every paid row in the business-rules output,
`updated_at` equals that row's `paid_at` value (null included); the
`created_at` fallback of the source applies only when the `paid_at` column is
missing from the frame, which the pipeline never produces. -/
theorem business_rule_paid_updated_at_is_paid_at (rows : List Transformer.TRow)
    (r' : Transformer.TRow) (hmem : r' ∈ (Transformer.applyBusinessRules rows).1)
    (hp : r'.status = "paid") : r'.updated_at = r'.paid_at := by
  simp only [Transformer.applyBusinessRules] at hmem
  rcases List.mem_map.1 hmem with ⟨x, _, hr⟩
  by_cases hpx : x.status == "paid"
  · rw [← hr]
    simp [hpx]
  · exfalso
    rw [← hr] at hp
    rw [if_neg (by simpa using hpx)] at hp
    exact hpx (by simp [hp])

/-- Witness for C5 (amended): the processed image of `c8r2` is paid and its
`updated_at` equals its `paid_at`. -/
theorem business_rule_paid_updated_at_is_paid_at_witness :
    c8r2Out ∈ (Transformer.applyBusinessRules [c8r2]).1 ∧ c8r2Out.status = "paid" ∧
    c8r2Out.updated_at = c8r2Out.paid_at :=
  ⟨by decide, rfl,
   business_rule_paid_updated_at_is_paid_at [c8r2] c8r2Out (by decide) rfl⟩

/-- C9: the two report types use opposite conventions on the empty input —
`ValidationReport.success_rate` is 0 when `total_rows` is 0, while
`TransformationReport.transformation_success_rate` is 100 when
`total_raw_rows` is 0. -/
theorem report_empty_input_conventions (vr : Loader.ValidationReport)
    (tr : Transformer.TransformationReport)
    (h1 : vr.total_rows = 0) (h2 : tr.total_raw_rows = 0) :
    vr.success_rate = 0 ∧ tr.transformation_success_rate = 100 := by
  unfold Loader.ValidationReport.success_rate
    Transformer.TransformationReport.transformation_success_rate
  rw [if_pos h1, if_pos h2]
  exact ⟨rfl, rfl⟩

/-- Witness for C9 at all-zero reports. -/
theorem report_empty_input_conventions_witness :
    (Loader.ValidationReport.mk 0 0 0 [] [] 0).total_rows = 0 ∧
    Loader.ValidationReport.success_rate ⟨0, 0, 0, [], [], 0⟩ = 0 ∧
    Transformer.TransformationReport.transformation_success_rate ⟨0, 0, 0, 0, 0⟩ = 100 :=
  ⟨rfl,
   (report_empty_input_conventions ⟨0, 0, 0, [], [], 0⟩ ⟨0, 0, 0, 0, 0⟩ rfl rfl).1,
   (report_empty_input_conventions ⟨0, 0, 0, [], [], 0⟩ ⟨0, 0, 0, 0, 0⟩ rfl rfl).2⟩

end Claims

section ClaimsTwo

/-- An element of a conditional singleton is that singleton's element. -/
theorem eq_of_mem_ite_singleton {c : Prop} [Decidable c] {e x : Loader.LoadErr}
    (h : e ∈ (if c then [x] else [])) : e = x := by
  split at h
  · simpa using h
  · exact absurd h (List.not_mem_nil e)

/-- C7 counterexample: in the loader's bulk per-row validation a row whose
status is `PAID` produces an `invalid_status` error and is counted invalid,
even though the Validator's `validate_status` cleans `PAID` to `paid` and
accepts it. -/
theorem loader_status_case_counterexample :
    c7row.status = some "PAID" ∧
    Loader.validateRow demoDateP c7row 0 = [⟨"invalid_status", some "status", 0⟩] ∧
    (Loader.validate_data_integrity demoDateP [c7row]).valid_rows = 0 ∧
    (Loader.validate_data_integrity demoDateP [c7row]).invalid_rows = 1 ∧
    Validation.validate_status (some "PAID") = .ok { cleaned_value := some "paid" } := by
  decide

/-- C7 (amended): the loader's bulk per-row validation tests the raw status
string for exact membership in the fixed enumeration — no trimming or
lowercasing — so a non-empty status yields an `invalid_status` error exactly
when the raw string is not literally one of the allowed values. -/
theorem loader_status_checked_raw (pdParse : String → Option DateT)
    (row : Loader.LRow) (idx : Nat) (s : String)
    (hs : row.status = some s) (hne : s ≠ "") :
    ((Loader.validateRow pdParse row idx).any (fun e => e.etype == "invalid_status")) = true
      ↔ s ∉ Loader.VALID_STATUSES := by
  have hmem5 : (match row.status with
      | some s => if s ≠ "" ∧ s ∉ Loader.VALID_STATUSES then
          [(⟨"invalid_status", some "status", idx⟩ : Loader.LoadErr)] else []
      | none => ([] : List Loader.LoadErr))
      = if s ∉ Loader.VALID_STATUSES then
          [(⟨"invalid_status", some "status", idx⟩ : Loader.LoadErr)] else [] := by
    simp only [hs]
    by_cases h : s ∉ Loader.VALID_STATUSES
    · rw [if_pos ⟨hne, h⟩, if_pos h]
    · rw [if_neg (fun hc => h hc.2), if_neg h]
  constructor
  · intro h
    by_contra hin
    rcases List.any_eq_true.1 h with ⟨e, he, hety⟩
    have hety' : e.etype = "invalid_status" := by simpa using hety
    simp only [Loader.validateRow, List.mem_append] at he
    rcases he with ((((he1 | he2) | he3) | he4) | he5) | he6
    · rw [eq_of_mem_ite_singleton he1] at hety'
      exact absurd hety' (by simp)
    · rw [eq_of_mem_ite_singleton he2] at hety'
      exact absurd hety' (by simp)
    · rcases List.mem_flatMap.1 he3 with ⟨q, _, heq⟩
      rcases hcell : Loader.LRow.cell row q.1 with _ | s'
      · simp only [hcell] at heq
        exact absurd heq (List.not_mem_nil e)
      · simp only [hcell] at heq
        rw [eq_of_mem_ite_singleton heq] at hety'
        exact absurd hety' (by simp)
    · rcases hamt : row.amount with _ | sa
      · simp only [hamt] at he4
        exact absurd he4 (List.not_mem_nil e)
      · simp only [hamt] at he4
        split at he4
        · rcases hda : parseDecimal sa with _ | d
          · simp only [hda] at he4
            rw [List.mem_singleton.1 he4] at hety'
            exact absurd hety' (by simp)
          · simp only [hda] at he4
            rw [eq_of_mem_ite_singleton he4] at hety'
            exact absurd hety' (by simp)
        · exact absurd he4 (List.not_mem_nil e)
    · rw [hmem5] at he5
      rw [if_neg (not_not_intro hin)] at he5
      exact absurd he5 (List.not_mem_nil e)
    · rcases List.mem_flatMap.1 he6 with ⟨f, _, hef⟩
      rcases hcell : Loader.LRow.cell row f with _ | s'
      · simp only [hcell] at hef
        exact absurd hef (List.not_mem_nil e)
      · simp only [hcell] at hef
        rw [eq_of_mem_ite_singleton hef] at hety'
        exact absurd hety' (by simp)
  · intro hnot
    refine List.any_eq_true.2 ⟨⟨"invalid_status", some "status", idx⟩, ?_, by simp⟩
    simp only [Loader.validateRow, List.mem_append]
    refine Or.inl (Or.inr ?_)
    rw [hmem5, if_pos hnot]
    exact List.mem_singleton.2 rfl

/-- Witness for C7 (amended) at the all-caps status `PAID`. -/
theorem loader_status_checked_raw_witness :
    c7row.status = some "PAID" ∧ "PAID" ≠ "" ∧
    (((Loader.validateRow demoDateP c7row 0).any
        (fun e => e.etype == "invalid_status")) = true
      ↔ "PAID" ∉ Loader.VALID_STATUSES) :=
  ⟨rfl, by decide, loader_status_checked_raw demoDateP c7row 0 "PAID" rfl (by decide)⟩

/-- C8 counterexample: an input containing a paid row with `paid_at` before
`created_at` where that row's id duplicates an earlier row's id — the
duplicate-removal rule drops the inconsistent row before the date check, so
no `date_consistency_error` issue is recorded and the row does not appear in
the derived charges. -/
theorem date_consistency_duplicate_counterexample :
    c8r2.status = "paid" ∧ c8r2.paid_at = some 5 ∧ (5 : Int) < c8r2.created_at ∧
    c8r1.id = c8r2.id ∧
    (Transformer.applyBusinessRules [c8r1, c8r2]).2 = [⟨"duplicates_removed", 1⟩] ∧
    (Transformer.transformCharges (Transformer.applyBusinessRules [c8r1, c8r2]).1).length
      = 1 := by
  decide

/-- C8 (amended): for every transform input containing a paid row with both
dates present and `paid_at` before `created_at`, provided no earlier row
shares that row's charge id (so duplicate removal keeps it), the business
rules record a `date_consistency_error` quality issue and the row still
contributes a charge with its id to the derived charges. -/
theorem date_consistency_flagged_not_dropped (l1 l2 : List Transformer.TRow)
    (r : Transformer.TRow) (p : DateT)
    (hs : r.status = "paid") (hp : r.paid_at = some p) (hlt : p < r.created_at)
    (hfirst : ∀ x ∈ l1, x.id ≠ r.id) :
    (∃ iss ∈ (Transformer.applyBusinessRules (l1 ++ r :: l2)).2,
        iss.type = "date_consistency_error") ∧
    ∃ ch ∈ Transformer.transformCharges (Transformer.applyBusinessRules (l1 ++ r :: l2)).1,
        ch.id = r.id := by
  have hr : r ∈ Transformer.dedupBy Transformer.TRow.id (l1 ++ r :: l2) :=
    dedupBy_mem_of_first Transformer.TRow.id r l1 l2 hfirst
  obtain ⟨r', hr', hid, hst, hpd, hcr, _⟩ :=
    applyBusinessRules_mem (l1 ++ r :: l2) r hr
  constructor
  · have hsplit : ∃ pre, (Transformer.applyBusinessRules (l1 ++ r :: l2)).2
        = pre ++ Transformer.dateConsistencyIssues
            ((Transformer.applyBusinessRules (l1 ++ r :: l2)).1) := ⟨_, rfl⟩
    rcases hsplit with ⟨pre, hpre⟩
    rcases dateConsistencyIssues_of_mem _ r' hr' (hst.trans hs) p
        (hpd.trans hp) (hcr ▸ hlt) with ⟨iss, hiss, hty⟩
    exact ⟨iss, hpre ▸ List.mem_append_right pre hiss, hty⟩
  · refine ⟨⟨r'.id, r'.company_id, r'.amount, r'.status, r'.created_at, r'.updated_at⟩,
      ?_, hid⟩
    exact List.mem_map_of_mem _ hr'

/-- Witness for C8 (amended) at a single inconsistent paid row. -/
theorem date_consistency_flagged_not_dropped_witness :
    c8r2.status = "paid" ∧ c8r2.paid_at = some 5 ∧ (5 : Int) < c8r2.created_at ∧
    (∃ iss ∈ (Transformer.applyBusinessRules [c8r2]).2,
        iss.type = "date_consistency_error") ∧
    ∃ ch ∈ Transformer.transformCharges (Transformer.applyBusinessRules [c8r2]).1,
        ch.id = c8r2.id :=
  ⟨rfl, rfl, by decide,
   (date_consistency_flagged_not_dropped [] [] c8r2 5 rfl rfl (by decide)
      (fun x hx => absurd hx (List.not_mem_nil x))).1,
   (date_consistency_flagged_not_dropped [] [] c8r2 5 rfl rfl (by decide)
      (fun x hx => absurd hx (List.not_mem_nil x))).2⟩

end ClaimsTwo

section ClaimsThree

/-- C2: evaluation of the batched loader at a failing input.  Rows `r0`,`r1`,
`r2` are loaded with `batch_size = 2` and the database rejects only `r2`
(the row labelled 2, the sole element of the second batch).  The fallback
behaves as specified — the failed batch is rolled back, retried row by row,
`r0` and `r1` are persisted and only the bad row errors as an
`individual_row_error` — but the recorded error carries row index 4
(`batch_start_idx` 2 plus the row's frame label 2, double-counting the
offset) instead of the row's index 2. -/
theorem loader_batch_fallback_row_index_bug :
    (List.enum [c2row0, c2row1, c2row2]).filter
        (fun p => match Loader.rowToRawTransaction p.2 with
                  | some rt => c2fails rt
                  | none => false) = [(2, c2row2)] ∧
    Loader.loadDataframeToDatabase c2fails [c2row0, c2row1, c2row2] 2
      = .ok (⟨[⟨some "r0", some "N0", some "c1", some ⟨1000, 2⟩, some "paid",
                some "2020-01-01", none⟩,
               ⟨some "r1", some "N1", some "c1", some ⟨500, 2⟩, some "voided",
                some "2020-01-01", none⟩], []⟩,
             2, [⟨"individual_row_error", none, 4⟩]) ∧
    (4 : Nat) ≠ 2 := by
  decide

/-- C10: evaluation of the transformer's row validation at a row whose
`created_at` does not parse.  The parse result itself is invalid, but the
row's result keeps `is_valid = true` with the parse error only collected in
`errors`, so the row is retained by the validation pass (with the raw
unparsed string left in its `created_at` slot) and no quality issue is
recorded; by contrast, a row with an unparsable `paid_at` is kept with a
warning and a null `paid_at`, exactly as the claim describes. -/
theorem transformer_created_at_parse_failure_row_kept :
    (Transformer.validateRowForTransformation demoDateP demoDateP c10row).is_valid
        = true ∧
    (Transformer.validateRowForTransformation demoDateP demoDateP c10row).errors
        = ["Unable to parse created_at: garbage"] ∧
    Transformer.validateTransformedData demoDateP demoDateP [c10row]
      = ([⟨"a1", "Acme", "c1", ⟨1000, 2⟩, "paid", .raw (some "garbage"), none⟩], []) ∧
    (Transformer.parseAndValidateDate demoDateP demoDateP (some "garbage")
        "created_at").is_valid = false ∧
    Transformer.validateRowForTransformation demoDateP demoDateP c10rowB
      = ⟨true, [], ["paid_at: Unable to parse paid_at: garbage"],
          some ⟨"a1", "Acme", "c1", ⟨1000, 2⟩, "paid", .date 100, none⟩⟩ := by
  decide

end ClaimsThree
